import Mathlib

/-!
Verification of the skill installer (`scripts/install_skill.py`) and the
validate entry point (`scripts/validate_skill.py`).

The filesystem is modelled as a partial map from paths (lists of
components) to nodes; directory containment is by path prefix.  Symbolic
links are followed at the final component with a fuel bound, mirroring the
OS symlink-loop limit that makes `Path.exists()` return false on a loop.
The external validator (`quick_validate.validate_skill`) is a parameter of
every operation, as it is an external collaborator of this system.
-/

namespace Skills

/-- A filesystem path, as the list of components below the root. -/
abbrev Path := List String

/-- A filesystem node: a symbolic link (target path plus the
directory-link flag of `symlink_to`), a directory, or a regular file. -/
inductive Node where
  | symlink (target : Path) (targetIsDir : Bool)
  | dir
  | file
deriving DecidableEq

/-- Filesystem state: a partial map from paths to nodes. -/
abbrev FS := Path → Option Node

/-- `seg p q` : `p` is an initial segment (ancestor-or-self) of `q`. -/
def seg : Path → Path → Bool
  | [], _ => true
  | _ :: _, [] => false
  | a :: p, b :: q => a == b && seg p q

/-- All initial segments of a path, shortest first. -/
def heads : Path → List Path
  | [] => [[]]
  | a :: p => [] :: (heads p).map (a :: ·)

/-- Follow symbolic links at the final path component; the fuel bounds the
length of a link chain, as the OS symlink-loop limit does. -/
def resolveNode (fs : FS) : Nat → Path → Option (Path × Node)
  | 0, _ => none
  | fuel + 1, p =>
    match fs p with
    | some (Node.symlink t _) => resolveNode fs fuel t
    | some n => some (p, n)
    | none => none

/-- The symlink-chain bound used by the path predicates. -/
def symFuel : Nat := 40

/-- `Path.exists()` : the path resolves, through symlinks, to a node. -/
def fsExists (fs : FS) (p : Path) : Bool := (resolveNode fs symFuel p).isSome

/-- `Path.is_dir()` : the path resolves, through symlinks, to a directory. -/
def isDir (fs : FS) (p : Path) : Bool :=
  match resolveNode fs symFuel p with
  | some (_, Node.dir) => true
  | _ => false

/-- `Path.is_symlink()` : the node itself is a symbolic link, not followed. -/
def isSymlink (fs : FS) (p : Path) : Bool :=
  match fs p with
  | some (Node.symlink _ _) => true
  | _ => false

/-- `Path.unlink()` : remove the single entry at `p`. -/
def unlink (fs : FS) (p : Path) : FS :=
  fun q => if q = p then none else fs q

/-- `shutil.rmtree(p)` : remove the entry at `p` and everything below it. -/
def rmtree (fs : FS) (p : Path) : FS :=
  fun q => if seg p q then none else fs q

/-- `p.mkdir` with `parents` and `exist_ok` set: create the directory and
all missing ancestors.  `none` models the uncaught exception raised when
some existing ancestor, or the path itself, does not resolve to a
directory. -/
def mkdirp (fs : FS) (p : Path) : Option FS :=
  if (heads p).any (fun q => (fs q).isSome && !isDir fs q) then none
  else some (fun q => if seg q p && (fs q).isNone then some Node.dir else fs q)

/-- `linkpath.symlink_to(target)` : POSIX symlink creation.  It fails when
`linkpath` already carries a node (even a broken link) or when its parent
does not resolve to a directory. -/
def symlinkTo (fs : FS) (linkpath target : Path) (targetIsDir : Bool) : Option FS :=
  if (fs linkpath).isSome then none
  else if !isDir fs linkpath.dropLast then none
  else some (fun q => if q = linkpath then some (Node.symlink target targetIsDir) else fs q)

/-- `str.lower()` : lowercase every character. -/
def pyLower (s : String) : String := String.mk (s.data.map Char.toLower)

/-- `str.strip()` : drop whitespace from both ends. -/
def pyStrip (s : String) : String :=
  String.mk (((s.data.dropWhile Char.isWhitespace).reverse.dropWhile
    Char.isWhitespace).reverse)

/-- `get_confirmation` from `install_skill.py`: consume responses until one
is recognized after lowercasing and stripping; `none` when the stream holds
no recognized answer, so the prompt never resolves. -/
def get_confirmation : List String → Option Bool
  | [] => none
  | s :: rest =>
    let response := pyStrip (pyLower s)
    if ["y", "yes"].contains response then some true
    else if ["n", "no"].contains response then some false
    else get_confirmation rest

/-- Ambient process environment: home directory, current working
directory, and OS path resolution (absolute, symlink-resolved), as used by
`Path.home()`, `Path.cwd()` and `Path.resolve()`. -/
structure Env where
  home : Path
  cwd : Path
  resolve : Path → Path

/-- The two installation scopes. -/
inductive InstallType where
  | personal
  | project
deriving DecidableEq

/-- Base directory of the registry for a scope. -/
def baseDir (env : Env) : InstallType → Path
  | InstallType.personal => env.home ++ [".claude", "skills"]
  | InstallType.project => env.cwd ++ [".claude", "skills"]

/-- Destination path of a skill: the scope's base directory plus the name
of the resolved source folder. -/
def destPath (env : Env) (ty : InstallType) (skill_path0 : Path) : Path :=
  baseDir env ty ++ [(env.resolve skill_path0).getLastD ""]

/-- Observable events of one installer run, in execution order. -/
inductive Event where
  | validated
  | confirmed
  | removed (p : Path)
  | linked (p : Path)
deriving DecidableEq

/-- The error taxonomy, one constructor per distinct failure report of
`install_skill`. -/
inductive InstallError where
  | NotFound
  | NotADirectory
  | MissingManifest
  | ValidationFailed (msg : String)
  | Cancelled
  | LinkCreationError
deriving DecidableEq

/-- Outcome of one installer run: a normal return carrying the success
flag, the reported error, the final filesystem and the event trace; `hang`
when the confirmation prompt never resolves; `crash` for an uncaught
exception. -/
inductive IOut where
  | ret (success : Bool) (err : Option InstallError) (fs : FS) (evs : List Event)
  | hang (fs : FS) (evs : List Event)
  | crash (fs : FS) (evs : List Event)

/-- Final filesystem of a run. -/
def IOut.fs : IOut → FS
  | IOut.ret _ _ fs _ => fs
  | IOut.hang fs _ => fs
  | IOut.crash fs _ => fs

/-- Event trace of a run. -/
def IOut.evs : IOut → List Event
  | IOut.ret _ _ _ evs => evs
  | IOut.hang _ evs => evs
  | IOut.crash _ evs => evs

/-- Success flag of a run. -/
def IOut.success : IOut → Bool
  | IOut.ret s _ _ _ => s
  | _ => false

/-- Reported error of a run. -/
def IOut.err : IOut → Option InstallError
  | IOut.ret _ e _ _ => e
  | _ => none

/-- The remove-existing block of `install_skill`: a symlink is unlinked
without being followed; a directory is removed recursively; any other
node is removed as a single file. -/
def remove_existing (fs : FS) (dest_path : Path) : FS :=
  if isSymlink fs dest_path then unlink fs dest_path
  else if isDir fs dest_path then rmtree fs dest_path
  else unlink fs dest_path

/-- The tail of `install_skill` after collision handling: ensure the base
directory exists, then create the symlink.  The try/except around
`symlink_to` turns its failure into an unsuccessful return; an exception
from `mkdir` is uncaught. -/
def createLink (fs1 : FS) (dest_base dest_path target : Path) (evs : List Event) : IOut :=
  match mkdirp fs1 dest_base with
  | none => IOut.crash fs1 evs
  | some fs2 =>
    match symlinkTo fs2 dest_path target true with
    | some fs3 => IOut.ret true none fs3 (evs ++ [Event.linked dest_path])
    | none => IOut.ret false (some InstallError.LinkCreationError) fs2 evs

/-- `install_skill` from `install_skill.py`: resolve the source, check the
preconditions in order, run the external validator, then resolve a
collision at the destination (confirm, then remove) and create the
symlink. -/
def install_skill (validate : Path → Bool × String) (env : Env)
    (inputs : List String) (fs : FS) (skill_path0 : Path)
    (install_type : InstallType) : IOut :=
  let skill_path := env.resolve skill_path0
  if !fsExists fs skill_path then
    IOut.ret false (some InstallError.NotFound) fs []
  else if !isDir fs skill_path then
    IOut.ret false (some InstallError.NotADirectory) fs []
  else if !fsExists fs (skill_path ++ ["SKILL.md"]) then
    IOut.ret false (some InstallError.MissingManifest) fs []
  else if !(validate skill_path).1 then
    IOut.ret false (some (InstallError.ValidationFailed (validate skill_path).2)) fs []
  else
    let skill_name := skill_path.getLastD ""
    let dest_base := baseDir env install_type
    let dest_path := dest_base ++ [skill_name]
    if fsExists fs dest_path || isSymlink fs dest_path then
      match get_confirmation inputs with
      | none => IOut.hang fs [Event.validated]
      | some false => IOut.ret false (some InstallError.Cancelled) fs [Event.validated]
      | some true =>
        createLink (remove_existing fs dest_path) dest_base dest_path skill_path
          [Event.validated, Event.confirmed, Event.removed dest_path]
    else
      createLink fs dest_base dest_path skill_path [Event.validated]

/-- Render a path for a printed message. -/
def pathStr (p : Path) : String := String.intercalate "/" p

/-- `main` of `validate_skill.py`, from path resolution onward: the exit
code, the printed lines, and the (unchanged) filesystem. -/
def validate_main (validate : Path → Bool × String) (env : Env) (fs : FS)
    (arg : Path) : Nat × List String × FS :=
  let skill_path := env.resolve arg
  if !fsExists fs skill_path then
    (1, ["❌ Error: Skill folder not found: " ++ pathStr skill_path], fs)
  else if !isDir fs skill_path then
    (1, ["❌ Error: Path is not a directory: " ++ pathStr skill_path], fs)
  else
    let v := validate skill_path
    if v.1 then (0, ["✅ " ++ v.2], fs)
    else (1, ["❌ Validation failed: " ++ v.2], fs)

/-- Temporal checker: scanning an event trace left to right with flags for
"validation has succeeded" and "an overwrite has been confirmed", every
removal event must find both flags set. -/
def removalsGuarded : Bool → Bool → List Event → Bool
  | _, _, [] => true
  | _, c, Event.validated :: rest => removalsGuarded true c rest
  | v, _, Event.confirmed :: rest => removalsGuarded v true rest
  | v, c, Event.removed _ :: rest => v && c && removalsGuarded v c rest
  | v, c, Event.linked _ :: rest => removalsGuarded v c rest

/-! Concrete fixtures used by witnesses and counterexamples. -/

/-- A clean state: a source skill at `src/sk` with its manifest, an empty
registry, and the home directory present. -/
def fsW : FS := fun q =>
  if q = ([] : Path) then some Node.dir
  else if q = ["home"] then some Node.dir
  else if q = ["src"] then some Node.dir
  else if q = ["src", "sk"] then some Node.dir
  else if q = ["src", "sk", "SKILL.md"] then some Node.file
  else none

/-- Like `fsW`, but `home/.claude` is occupied by a regular file, so the
base directory cannot be created. -/
def fsB : FS := fun q =>
  if q = ([] : Path) then some Node.dir
  else if q = ["home"] then some Node.dir
  else if q = ["home", ".claude"] then some Node.file
  else if q = ["src"] then some Node.dir
  else if q = ["src", "sk"] then some Node.dir
  else if q = ["src", "sk", "SKILL.md"] then some Node.file
  else none

/-- Like `fsW`, but the registry entry for `sk` is a broken symbolic link
(its target `gone` does not exist). -/
def fsL : FS := fun q =>
  if q = ([] : Path) then some Node.dir
  else if q = ["home"] then some Node.dir
  else if q = ["home", ".claude"] then some Node.dir
  else if q = ["home", ".claude", "skills"] then some Node.dir
  else if q = ["home", ".claude", "skills", "sk"] then some (Node.symlink ["gone"] true)
  else if q = ["src"] then some Node.dir
  else if q = ["src", "sk"] then some Node.dir
  else if q = ["src", "sk", "SKILL.md"] then some Node.file
  else none

/-- Like `fsW`, but the registry entry for `sk` is a materialized
directory containing a file, and a sibling entry `other` exists. -/
def fsD : FS := fun q =>
  if q = ([] : Path) then some Node.dir
  else if q = ["home"] then some Node.dir
  else if q = ["home", ".claude"] then some Node.dir
  else if q = ["home", ".claude", "skills"] then some Node.dir
  else if q = ["home", ".claude", "skills", "sk"] then some Node.dir
  else if q = ["home", ".claude", "skills", "sk", "notes.txt"] then some Node.file
  else if q = ["home", ".claude", "skills", "other"] then some Node.file
  else if q = ["src"] then some Node.dir
  else if q = ["src", "sk"] then some Node.dir
  else if q = ["src", "sk", "SKILL.md"] then some Node.file
  else none

/-- Concrete environment: home at `home`, cwd at `cwd`, trivial resolution. -/
def envW : Env := { home := ["home"], cwd := ["cwd"], resolve := id }

/-- A validator that accepts everything. -/
def vW : Path → Bool × String := fun _ => (true, "ok")

/-- A validator that rejects everything. -/
def vF : Path → Bool × String := fun _ => (false, "bad frontmatter")

/-- The state after a first successful installation of `src/sk` from `fsW`. -/
def fs1W : FS := (install_skill vW envW [] fsW ["src", "sk"] InstallType.personal).fs

/-- The event trace of that first installation. -/
def evs1W : List Event := (install_skill vW envW [] fsW ["src", "sk"] InstallType.personal).evs

/-! Basic lemmas about path segments and symlink resolution. -/

theorem seg_refl (p : Path) : seg p p = true := by
  induction p with
  | nil => rfl
  | cons a p ih => simp [seg, ih]

theorem seg_length {p q : Path} (h : seg p q = true) : p.length ≤ q.length := by
  induction p generalizing q with
  | nil => simp
  | cons a p ih =>
    cases q with
    | nil => simp [seg] at h
    | cons b q =>
      simp only [seg, Bool.and_eq_true] at h
      simpa using ih h.2

theorem ne_of_seg_eq_false {p q : Path} (h : seg p q = false) : q ≠ p := by
  intro hpq
  rw [hpq, seg_refl p] at h
  exact absurd h (by simp)

theorem seg_snoc_self (b : Path) (a : String) : seg (b ++ [a]) b = false := by
  cases h : seg (b ++ [a]) b with
  | false => rfl
  | true =>
    have := seg_length h
    simp at this

theorem seg_snoc_of_seg {q b : Path} (a : String) (h : seg q b = true) :
    seg (b ++ [a]) q = false := by
  cases h2 : seg (b ++ [a]) q with
  | false => rfl
  | true =>
    have l1 := seg_length h
    have l2 := seg_length h2
    simp at l2
    omega

theorem mem_heads {q p : Path} : q ∈ heads p ↔ seg q p = true := by
  induction p generalizing q with
  | nil =>
    cases q with
    | nil => simp [heads, seg]
    | cons a q => simp [heads, seg]
  | cons a p ih =>
    cases q with
    | nil => simp [heads, seg]
    | cons b q =>
      simp only [heads, List.mem_cons, List.mem_map]
      constructor
      · rintro (h | ⟨r, hr, hrq⟩)
        · exact absurd h (by simp)
        · cases hrq
          simp [seg, ih.mp hr]
      · intro h
        simp only [seg, Bool.and_eq_true, beq_iff_eq] at h
        exact Or.inr ⟨q, ih.mpr h.2, by rw [h.1]⟩

theorem resolveNode_succ (fs : FS) (n : Nat) (p : Path) :
    resolveNode fs (n + 1) p =
      match fs p with
      | some (Node.symlink t _) => resolveNode fs n t
      | some node => some (p, node)
      | none => none := by
  rfl

theorem resolveNode_mono {fs g : FS} (hg : ∀ q, (fs q).isSome → g q = fs q) :
    ∀ n p x, resolveNode fs n p = some x → resolveNode g n p = some x := by
  intro n
  induction n with
  | zero => intro p x h; simp [resolveNode] at h
  | succ n ih =>
    intro p x h
    rw [resolveNode_succ] at h ⊢
    cases hfs : fs p with
    | none => rw [hfs] at h; simp at h
    | some node =>
      have hgp : g p = some node := by
        rw [hg p (by rw [hfs]; rfl), hfs]
      rw [hfs] at h
      rw [hgp]
      cases node with
      | symlink t b => exact ih t x h
      | dir => exact h
      | file => exact h

theorem symFuel_succ : symFuel = 39 + 1 := rfl

theorem resolve_of_dir {fs : FS} {p : Path} (h : fs p = some Node.dir) :
    resolveNode fs symFuel p = some (p, Node.dir) := by
  rw [symFuel_succ, resolveNode_succ, h]

theorem resolve_of_file {fs : FS} {p : Path} (h : fs p = some Node.file) :
    resolveNode fs symFuel p = some (p, Node.file) := by
  rw [symFuel_succ, resolveNode_succ, h]

theorem isDir_of_node {fs : FS} {p : Path} (h : fs p = some Node.dir) :
    isDir fs p = true := by
  unfold isDir
  rw [resolve_of_dir h]

theorem isDir_mono {fs g : FS} {p : Path} (hg : ∀ q, (fs q).isSome → g q = fs q)
    (h : isDir fs p = true) : isDir g p = true := by
  unfold isDir at h ⊢
  cases hres : resolveNode fs symFuel p with
  | none => rw [hres] at h; simp at h
  | some x =>
    rw [resolveNode_mono hg symFuel p x hres]
    rw [hres] at h
    exact h

theorem node_none_of_no_collision {fs : FS} {p : Path}
    (h1 : fsExists fs p = false) (h2 : isSymlink fs p = false) : fs p = none := by
  cases hp : fs p with
  | none => rfl
  | some node =>
    cases node with
    | symlink t b => unfold isSymlink at h2; rw [hp] at h2; simp at h2
    | dir =>
      unfold fsExists at h1
      rw [resolve_of_dir hp] at h1
      simp at h1
    | file =>
      unfold fsExists at h1
      rw [resolve_of_file hp] at h1
      simp at h1

/-! Lemmas about directory creation, link creation and removal. -/

theorem mkdirp_eq_some {fs g : FS} {p : Path} (h : mkdirp fs p = some g) :
    (∀ q, g q = if seg q p && (fs q).isNone then some Node.dir else fs q) ∧
    ∀ q, seg q p = true → (fs q).isSome → isDir fs q = true := by
  unfold mkdirp at h
  split at h
  · exact absurd h (by simp)
  · rename_i hblock
    refine ⟨fun q => by rw [← Option.some_inj.mp h], fun q hq hsome => ?_⟩
    rw [List.any_eq_true] at hblock
    push_neg at hblock
    have := hblock q (mem_heads.mpr hq)
    cases hdir : isDir fs q with
    | true => rfl
    | false => rw [hsome, hdir] at this; simp at this

theorem mkdirp_extends {fs g : FS} {p : Path} (h : mkdirp fs p = some g) :
    ∀ q, (fs q).isSome → g q = fs q := by
  intro q hq
  rw [(mkdirp_eq_some h).1 q]
  cases hfs : fs q with
  | none => rw [hfs] at hq; simp at hq
  | some n => simp [hfs]

theorem mkdirp_isDir_all {fs g : FS} {p : Path} (h : mkdirp fs p = some g) :
    ∀ q, seg q p = true → isDir g q = true ∧ (g q).isSome := by
  intro q hq
  cases hfs : fs q with
  | none =>
    have hgq : g q = some Node.dir := by
      rw [(mkdirp_eq_some h).1 q, hq, hfs]
      rfl
    exact ⟨isDir_of_node hgq, by rw [hgq]; rfl⟩
  | some n =>
    have hsome : (fs q).isSome := by rw [hfs]; rfl
    have hdir : isDir fs q = true := (mkdirp_eq_some h).2 q hq hsome
    have hgq : g q = fs q := mkdirp_extends h q hsome
    exact ⟨isDir_mono (mkdirp_extends h) hdir, by rw [hgq, hfs]; rfl⟩

theorem mkdirp_idem {fs g : FS} {p : Path} (h : mkdirp fs p = some g) :
    mkdirp g p = some g := by
  unfold mkdirp
  split
  · rename_i hblock
    rw [List.any_eq_true] at hblock
    obtain ⟨q, hmem, hbad⟩ := hblock
    have := mkdirp_isDir_all h q (mem_heads.mp hmem)
    rw [this.1] at hbad
    simp at hbad
  · congr 1
    funext q
    cases hseg : seg q p with
    | false => simp [hseg]
    | true =>
      have := (mkdirp_isDir_all h q hseg).2
      rw [Option.isSome_iff_ne_none] at this
      simp [hseg, Option.isNone_iff_eq_none, this]

theorem symlinkTo_eq_some {fs g : FS} {l t : Path} {b : Bool}
    (h : symlinkTo fs l t b = some g) :
    fs l = none ∧ isDir fs l.dropLast = true ∧
    ∀ q, g q = if q = l then some (Node.symlink t b) else fs q := by
  unfold symlinkTo at h
  split at h
  · exact absurd h (by simp)
  · split at h
    · exact absurd h (by simp)
    · rename_i hocc hpar
      refine ⟨?_, ?_, fun q => by rw [← Option.some_inj.mp h]⟩
      · cases hfs : fs l with
        | none => rfl
        | some n => exact absurd (by rw [hfs]; rfl) hocc
      · cases hd : isDir fs l.dropLast with
        | true => rfl
        | false => rw [hd] at hpar; simp at hpar

theorem symlinkTo_of {fs : FS} {l : Path} (t : Path) (b : Bool)
    (h1 : fs l = none) (h2 : isDir fs l.dropLast = true) :
    symlinkTo fs l t b =
      some (fun q => if q = l then some (Node.symlink t b) else fs q) := by
  unfold symlinkTo
  rw [h1, h2]
  rfl

theorem remove_existing_dest (fs : FS) (d : Path) : remove_existing fs d d = none := by
  unfold remove_existing
  split
  · simp [unlink]
  · split
    · simp [rmtree, seg_refl]
    · simp [unlink]

theorem remove_existing_frame {fs : FS} {d q : Path} (h : seg d q = false) :
    remove_existing fs d q = fs q := by
  unfold remove_existing
  have hne : q ≠ d := ne_of_seg_eq_false h
  split
  · simp [unlink, hne]
  · split
    · simp [rmtree, h]
    · simp [unlink, hne]

theorem createLink_evs (fs1 : FS) (b d t : Path) (evs0 : List Event) :
    (createLink fs1 b d t evs0).evs = evs0 ∨
    (createLink fs1 b d t evs0).evs = evs0 ++ [Event.linked d] := by
  unfold createLink
  split
  · exact Or.inl rfl
  · split
    · exact Or.inr rfl
    · exact Or.inl rfl

theorem createLink_frame {fs1 : FS} {b d t : Path} {evs0 : List Event} {q : Path}
    (h1 : q ≠ d) (h2 : seg q b = false) :
    (createLink fs1 b d t evs0).fs q = fs1 q := by
  unfold createLink
  split
  · rfl
  · rename_i g hmk
    have hgq : g q = fs1 q := by
      rw [(mkdirp_eq_some hmk).1 q, h2]
      rfl
    split
    · rename_i fs3 hsl
      rw [IOut.fs, (symlinkTo_eq_some hsl).2.2 q, if_neg h1, hgq]
    · rw [IOut.fs, hgq]

theorem createLink_base {fs1 : FS} {b d t : Path} {evs0 : List Event} {q : Path}
    (h1 : seg q b = true) (h2 : q ≠ d) :
    (createLink fs1 b d t evs0).fs q = fs1 q ∨
      (fs1 q = none ∧ (createLink fs1 b d t evs0).fs q = some Node.dir) := by
  unfold createLink
  split
  · exact Or.inl rfl
  · rename_i g hmk
    have hgq : g q = if (seg q b && (fs1 q).isNone) = true then some Node.dir else fs1 q :=
      (mkdirp_eq_some hmk).1 q
    split
    · rename_i fs3 hsl
      have hfs3 : fs3 q = g q := by
        rw [(symlinkTo_eq_some hsl).2.2 q, if_neg h2]
      show fs3 q = fs1 q ∨ (fs1 q = none ∧ fs3 q = some Node.dir)
      rcases hn : fs1 q with _ | n
      · right
        exact ⟨rfl, by rw [hfs3, hgq, hn, h1]; rfl⟩
      · left
        rw [hfs3, hgq, hn, h1]
        rfl
    · show g q = fs1 q ∨ (fs1 q = none ∧ g q = some Node.dir)
      rcases hn : fs1 q with _ | n
      · right
        exact ⟨rfl, by rw [hgq, hn, h1]; rfl⟩
      · left
        rw [hgq, hn, h1]
        rfl

theorem createLink_ok {fs1 : FS} {b : Path} {t : Path} {evs0 : List Event} {n : String}
    (h0 : fs1 (b ++ [n]) = none) (hmk : (mkdirp fs1 b).isSome = true) :
    ∃ g, mkdirp fs1 b = some g ∧
      createLink fs1 b (b ++ [n]) t evs0 =
        IOut.ret true none
          (fun q => if q = b ++ [n] then some (Node.symlink t true) else g q)
          (evs0 ++ [Event.linked (b ++ [n])]) := by
  rw [Option.isSome_iff_exists] at hmk
  obtain ⟨g, hg⟩ := hmk
  refine ⟨g, hg, ?_⟩
  have hgd : g (b ++ [n]) = none := by
    rw [(mkdirp_eq_some hg).1 (b ++ [n]), seg_snoc_self b n]
    simpa using h0
  have hpar : isDir g (b ++ [n]).dropLast = true := by
    rw [List.dropLast_concat]
    exact (mkdirp_isDir_all hg b (seg_refl b)).1
  unfold createLink
  rw [hg]
  simp only
  rw [symlinkTo_of t true hgd hpar]

/-! Lemmas about the install engine as a whole. -/

theorem destPath_eq (env : Env) (ty : InstallType) (sp0 : Path) :
    destPath env ty sp0 = baseDir env ty ++ [(env.resolve sp0).getLastD ""] := rfl

theorem install_eq_of_pre {v : Path → Bool × String} {env : Env}
    {inputs : List String} {fs : FS} {sp0 : Path} {ty : InstallType}
    (h1 : fsExists fs (env.resolve sp0) = true)
    (h2 : isDir fs (env.resolve sp0) = true)
    (h3 : fsExists fs (env.resolve sp0 ++ ["SKILL.md"]) = true)
    (h4 : (v (env.resolve sp0)).1 = true) :
    install_skill v env inputs fs sp0 ty =
      if fsExists fs (destPath env ty sp0) || isSymlink fs (destPath env ty sp0) then
        match get_confirmation inputs with
        | none => IOut.hang fs [Event.validated]
        | some false => IOut.ret false (some InstallError.Cancelled) fs [Event.validated]
        | some true =>
          createLink (remove_existing fs (destPath env ty sp0)) (baseDir env ty)
            (destPath env ty sp0) (env.resolve sp0)
            [Event.validated, Event.confirmed, Event.removed (destPath env ty sp0)]
      else
        createLink fs (baseDir env ty) (destPath env ty sp0) (env.resolve sp0)
          [Event.validated] := by
  unfold install_skill
  rw [destPath_eq]
  simp only [h1, h2, h3, h4, Bool.not_true, Bool.false_eq_true, if_false]

theorem install_ret_true_inv {v : Path → Bool × String} {env : Env}
    {i : List String} {fs : FS} {sp0 : Path} {ty : InstallType}
    {e : Option InstallError} {fs1 : FS} {evs1 : List Event}
    (h : install_skill v env i fs sp0 ty = IOut.ret true e fs1 evs1) :
    e = none ∧ ∃ fsA g, mkdirp fsA (baseDir env ty) = some g ∧
      symlinkTo g (destPath env ty sp0) (env.resolve sp0) true = some fs1 := by
  simp only [install_skill] at h
  rw [← destPath_eq env ty sp0] at h
  split at h
  · simp at h
  · split at h
    · simp at h
    · split at h
      · simp at h
      · split at h
        · simp at h
        · split at h
          · split at h
            · simp at h
            · simp at h
            · rename_i hconf
              unfold createLink at h
              split at h
              · simp at h
              · rename_i g hmk
                split at h
                · rename_i fs3 hsl
                  simp only [IOut.ret.injEq] at h
                  exact ⟨h.2.1.symm, _, g, hmk, by rw [← h.2.2.1]; exact hsl⟩
                · simp at h
          · unfold createLink at h
            split at h
            · simp at h
            · rename_i g hmk
              split at h
              · rename_i fs3 hsl
                simp only [IOut.ret.injEq] at h
                exact ⟨h.2.1.symm, _, g, hmk, by rw [← h.2.2.1]; exact hsl⟩
              · simp at h

theorem removalsGuarded_createLink {fs1 : FS} {b d t : Path} {evs0 : List Event}
    (h1 : removalsGuarded false false evs0 = true)
    (h2 : removalsGuarded false false (evs0 ++ [Event.linked d]) = true) :
    removalsGuarded false false (createLink fs1 b d t evs0).evs = true := by
  rcases createLink_evs fs1 b d t evs0 with h | h <;> rw [h] <;> assumption

/-! The claims. -/

/-- C2: the installer checks its preconditions in a fixed order — the
resolved source exists, it is a directory, `SKILL.md` is present, the
external validator accepts — and each failure is a hard stop with the
corresponding error, an empty event trace, and the filesystem returned
unchanged (no registry entry created or altered). -/
theorem install_preconditions_order
    (v : Path → Bool × String) (env : Env) (inputs : List String) (fs : FS)
    (sp0 : Path) (ty : InstallType) :
    (fsExists fs (env.resolve sp0) = false →
      install_skill v env inputs fs sp0 ty =
        IOut.ret false (some InstallError.NotFound) fs []) ∧
    (fsExists fs (env.resolve sp0) = true →
      isDir fs (env.resolve sp0) = false →
      install_skill v env inputs fs sp0 ty =
        IOut.ret false (some InstallError.NotADirectory) fs []) ∧
    (fsExists fs (env.resolve sp0) = true →
      isDir fs (env.resolve sp0) = true →
      fsExists fs (env.resolve sp0 ++ ["SKILL.md"]) = false →
      install_skill v env inputs fs sp0 ty =
        IOut.ret false (some InstallError.MissingManifest) fs []) ∧
    (fsExists fs (env.resolve sp0) = true →
      isDir fs (env.resolve sp0) = true →
      fsExists fs (env.resolve sp0 ++ ["SKILL.md"]) = true →
      (v (env.resolve sp0)).1 = false →
      install_skill v env inputs fs sp0 ty =
        IOut.ret false (some (InstallError.ValidationFailed (v (env.resolve sp0)).2))
          fs []) := by
  refine ⟨?_, ?_, ?_, ?_⟩ <;> intros <;> simp [install_skill, *]

/-- C3: in every run of the installer, whatever the inputs and the initial
state, every removal event in the trace is preceded by a successful
validation and an affirmative confirmation. -/
theorem install_no_removal_before_confirm
    (v : Path → Bool × String) (env : Env) (inputs : List String) (fs : FS)
    (sp0 : Path) (ty : InstallType) :
    removalsGuarded false false (install_skill v env inputs fs sp0 ty).evs = true := by
  simp only [install_skill]
  split
  · rfl
  split
  · rfl
  split
  · rfl
  split
  · rfl
  split
  · split
    · rfl
    · rfl
    · exact removalsGuarded_createLink rfl rfl
  · exact removalsGuarded_createLink rfl rfl

/-- C9: the validate entry point checks only that the resolved path exists
and is a directory, then delegates to the external validator: it exits 0
exactly when the verdict is successful, prints the validator's failure
message on a failed verdict, and returns the filesystem unchanged in every
case. -/
theorem validate_main_spec
    (v : Path → Bool × String) (env : Env) (fs : FS) (arg : Path) :
    ((validate_main v env fs arg).2.2 = fs) ∧
    (fsExists fs (env.resolve arg) = false → (validate_main v env fs arg).1 = 1) ∧
    (fsExists fs (env.resolve arg) = true → isDir fs (env.resolve arg) = false →
      (validate_main v env fs arg).1 = 1) ∧
    (fsExists fs (env.resolve arg) = true → isDir fs (env.resolve arg) = true →
      (((validate_main v env fs arg).1 = 0) ↔ (v (env.resolve arg)).1 = true) ∧
      ((v (env.resolve arg)).1 = false →
        (validate_main v env fs arg).2.1 =
          ["❌ Validation failed: " ++ (v (env.resolve arg)).2])) := by
  refine ⟨?_, ?_, ?_, ?_⟩
  · simp only [validate_main]
    split
    · rfl
    split
    · rfl
    split <;> rfl
  · intro h
    simp [validate_main, h]
  · intro h1 h2
    simp [validate_main, h1, h2]
  · intro h1 h2
    constructor
    · cases hv : (v (env.resolve arg)).1 <;> simp [validate_main, h1, h2, hv]
    · intro hv
      simp [validate_main, h1, h2, hv]

/-- C5: the confirmed-overwrite removal touches exactly the destination
entry according to its type: a symbolic link is unlinked alone, with every
other path (in particular the link's target) untouched; a real directory
is removed together with everything below it and nothing else; any other
node is removed as a single entry. -/
theorem remove_existing_exact (fs : FS) (d : Path) :
    (isSymlink fs d = true →
      remove_existing fs d d = none ∧
      ∀ q, q ≠ d → remove_existing fs d q = fs q) ∧
    (isSymlink fs d = false → isDir fs d = true →
      ∀ q, remove_existing fs d q = if seg d q = true then none else fs q) ∧
    (isSymlink fs d = false → isDir fs d = false →
      remove_existing fs d d = none ∧
      ∀ q, q ≠ d → remove_existing fs d q = fs q) := by
  refine ⟨?_, ?_, ?_⟩
  · intro hsl
    unfold remove_existing
    rw [hsl]
    exact ⟨by simp [unlink], fun q hq => by simp [unlink, hq]⟩
  · intro hsl hdir q
    unfold remove_existing
    rw [hsl, hdir]
    simp only [Bool.false_eq_true, if_false, if_true]
    rw [rmtree]
  · intro hsl hdir
    unfold remove_existing
    rw [hsl, hdir]
    exact ⟨by simp [unlink], fun q hq => by simp [unlink, hq]⟩

/-- C6: when the preconditions and validation pass, a collision is
detected at the destination, and the confirmation stream answers no, the
installer reports `Cancelled` and returns the filesystem unchanged, so the
pre-existing registry entry is exactly as before. -/
theorem install_decline_cancelled
    (v : Path → Bool × String) (env : Env) (inputs : List String) (fs : FS)
    (sp0 : Path) (ty : InstallType)
    (h1 : fsExists fs (env.resolve sp0) = true)
    (h2 : isDir fs (env.resolve sp0) = true)
    (h3 : fsExists fs (env.resolve sp0 ++ ["SKILL.md"]) = true)
    (h4 : (v (env.resolve sp0)).1 = true)
    (hc : (fsExists fs (destPath env ty sp0) || isSymlink fs (destPath env ty sp0)) = true)
    (hn : get_confirmation inputs = some false) :
    install_skill v env inputs fs sp0 ty =
      IOut.ret false (some InstallError.Cancelled) fs [Event.validated] := by
  rw [install_eq_of_pre h1 h2 h3 h4, if_pos hc, hn]

/-- C4: once the preconditions and validation pass, a collision is
detected exactly when the destination exists or is a symbolic link (so a
broken link still collides).  Without a collision the run is independent
of the confirmation stream and performs no removal; with a collision the
run consults the prompt, hanging when the stream never answers. -/
theorem install_collision_iff
    (v : Path → Bool × String) (env : Env) (inputs : List String) (fs : FS)
    (sp0 : Path) (ty : InstallType)
    (h1 : fsExists fs (env.resolve sp0) = true)
    (h2 : isDir fs (env.resolve sp0) = true)
    (h3 : fsExists fs (env.resolve sp0 ++ ["SKILL.md"]) = true)
    (h4 : (v (env.resolve sp0)).1 = true) :
    (fsExists fs (destPath env ty sp0) = false →
      isSymlink fs (destPath env ty sp0) = false →
      install_skill v env inputs fs sp0 ty = install_skill v env [] fs sp0 ty ∧
      ∀ p, Event.removed p ∉ (install_skill v env inputs fs sp0 ty).evs) ∧
    ((fsExists fs (destPath env ty sp0) || isSymlink fs (destPath env ty sp0)) = true →
      get_confirmation inputs = none →
      install_skill v env inputs fs sp0 ty = IOut.hang fs [Event.validated]) := by
  constructor
  · intro he hs
    have hcond : (fsExists fs (destPath env ty sp0) ||
        isSymlink fs (destPath env ty sp0)) = false := by
      rw [he, hs]
      rfl
    rw [install_eq_of_pre h1 h2 h3 h4, if_neg (by rw [hcond]; simp)]
    refine ⟨by rw [install_eq_of_pre h1 h2 h3 h4, if_neg (by rw [hcond]; simp)], ?_⟩
    intro p
    rcases createLink_evs fs (baseDir env ty) (destPath env ty sp0) (env.resolve sp0)
        [Event.validated] with h | h <;> rw [h] <;> simp
  · intro hc hn
    rw [install_eq_of_pre h1 h2 h3 h4, if_pos hc, hn]

theorem yes_no_disjoint {r : String} (h1 : r ∈ (["y", "yes"] : List String))
    (h2 : r ∈ (["n", "no"] : List String)) : False := by
  simp only [List.mem_cons, List.not_mem_nil, or_false] at h1 h2
  rcases h1 with h1 | h1 <;> rcases h2 with h2 | h2 <;> subst h1 <;>
    exact absurd h2 (by decide)

theorem mem_recognized_of_yes {r : String} (h : r ∈ (["y", "yes"] : List String)) :
    r ∈ (["y", "yes", "n", "no"] : List String) := by
  simp only [List.mem_cons, List.not_mem_nil] at h ⊢
  tauto

theorem mem_recognized_of_no {r : String} (h : r ∈ (["n", "no"] : List String)) :
    r ∈ (["y", "yes", "n", "no"] : List String) := by
  simp only [List.mem_cons, List.not_mem_nil] at h ⊢
  tauto

theorem not_mem_recognized {r : String} (h1 : r ∉ (["y", "yes"] : List String))
    (h2 : r ∉ (["n", "no"] : List String)) :
    r ∉ (["y", "yes", "n", "no"] : List String) := by
  simp only [List.mem_cons, List.not_mem_nil] at h1 h2 ⊢
  tauto

/-- C10: the confirmation loop returns the answer determined by the first
recognized response after lowercasing and stripping — true for y or yes,
false for n or no — every earlier unrecognized input having no effect, and
it resolves exactly when some recognized response is present in the
stream. -/
theorem get_confirmation_first_recognized (inputs : List String) :
    (∀ b : Bool, get_confirmation inputs = some b ↔
      ∃ l1 s l2, inputs = l1 ++ s :: l2 ∧
        (∀ x ∈ l1, pyStrip (pyLower x) ∉ (["y", "yes", "n", "no"] : List String)) ∧
        ((pyStrip (pyLower s) ∈ (["y", "yes"] : List String) ∧ b = true) ∨
         (pyStrip (pyLower s) ∈ (["n", "no"] : List String) ∧ b = false))) ∧
    (get_confirmation inputs = none ↔
      ∀ x ∈ inputs, pyStrip (pyLower x) ∉ (["y", "yes", "n", "no"] : List String)) := by
  induction inputs with
  | nil =>
    constructor
    · intro b
      constructor
      · intro h
        exact absurd h (by simp [get_confirmation])
      · rintro ⟨l1, s, l2, h, -, -⟩
        exact absurd h (by simp)
    · simp [get_confirmation]
  | cons s rest ih =>
    by_cases hy : pyStrip (pyLower s) ∈ (["y", "yes"] : List String)
    · have heq : get_confirmation (s :: rest) = some true := by
        simp [get_confirmation, List.contains, hy]
      constructor
      · intro b
        rw [heq]
        constructor
        · intro h
          have hb := Option.some.inj h
          exact ⟨[], s, rest, rfl, by simp, Or.inl ⟨hy, hb.symm⟩⟩
        · rintro ⟨l1, s', l2, hsplit, hl1, hcase⟩
          cases l1 with
          | nil =>
            simp only [List.nil_append, List.cons.injEq] at hsplit
            obtain ⟨hs, -⟩ := hsplit
            rcases hcase with ⟨-, hb⟩ | ⟨hmem, -⟩
            · rw [hb]
            · rw [← hs] at hmem
              exact (yes_no_disjoint hy hmem).elim
          | cons a l1' =>
            simp only [List.cons_append, List.cons.injEq] at hsplit
            obtain ⟨hs, -⟩ := hsplit
            have hnot := hl1 a (by simp)
            rw [← hs] at hnot
            exact absurd (mem_recognized_of_yes hy) hnot
      · rw [heq]
        constructor
        · intro h
          exact absurd h (by simp)
        · intro hall
          exact absurd (mem_recognized_of_yes hy) (hall s (by simp))
    · by_cases hn : pyStrip (pyLower s) ∈ (["n", "no"] : List String)
      · have heq : get_confirmation (s :: rest) = some false := by
          simp [get_confirmation, List.contains, hy, hn]
        constructor
        · intro b
          rw [heq]
          constructor
          · intro h
            have hb := Option.some.inj h
            exact ⟨[], s, rest, rfl, by simp, Or.inr ⟨hn, hb.symm⟩⟩
          · rintro ⟨l1, s', l2, hsplit, hl1, hcase⟩
            cases l1 with
            | nil =>
              simp only [List.nil_append, List.cons.injEq] at hsplit
              obtain ⟨hs, -⟩ := hsplit
              rcases hcase with ⟨hmem, -⟩ | ⟨-, hb⟩
              · rw [← hs] at hmem
                exact (yes_no_disjoint hmem hn).elim
              · rw [hb]
            | cons a l1' =>
              simp only [List.cons_append, List.cons.injEq] at hsplit
              obtain ⟨hs, -⟩ := hsplit
              have hnot := hl1 a (by simp)
              rw [← hs] at hnot
              exact absurd (mem_recognized_of_no hn) hnot
        · rw [heq]
          constructor
          · intro h
            exact absurd h (by simp)
          · intro hall
            exact absurd (mem_recognized_of_no hn) (hall s (by simp))
      · have heq : get_confirmation (s :: rest) = get_confirmation rest := by
          simp [get_confirmation, List.contains, hy, hn]
        constructor
        · intro b
          rw [heq, ih.1 b]
          constructor
          · rintro ⟨l1, s', l2, hsplit, hl1, hcase⟩
            refine ⟨s :: l1, s', l2, by rw [hsplit]; rfl, ?_, hcase⟩
            intro x hx
            rcases List.mem_cons.mp hx with rfl | hx'
            · exact not_mem_recognized hy hn
            · exact hl1 x hx'
          · rintro ⟨l1, s', l2, hsplit, hl1, hcase⟩
            cases l1 with
            | nil =>
              simp only [List.nil_append, List.cons.injEq] at hsplit
              obtain ⟨hs, -⟩ := hsplit
              rcases hcase with ⟨hmem, -⟩ | ⟨hmem, -⟩
              · rw [← hs] at hmem
                exact absurd hmem hy
              · rw [← hs] at hmem
                exact absurd hmem hn
            | cons a l1' =>
              simp only [List.cons_append, List.cons.injEq] at hsplit
              obtain ⟨-, hrest⟩ := hsplit
              exact ⟨l1', s', l2, hrest, fun x hx => hl1 x (List.mem_cons_of_mem _ hx),
                hcase⟩
        · rw [heq, ih.2]
          constructor
          · intro h x hx
            rcases List.mem_cons.mp hx with rfl | hx'
            · exact not_mem_recognized hy hn
            · exact h x hx'
          · intro h x hx
            exact h x (List.mem_cons_of_mem _ hx)

theorem install_shape (v : Path → Bool × String) (env : Env) (inputs : List String)
    (fs : FS) (sp0 : Path) (ty : InstallType) :
    ((install_skill v env inputs fs sp0 ty).fs = fs ∧
      (install_skill v env inputs fs sp0 ty).success = false) ∨
    install_skill v env inputs fs sp0 ty =
      createLink fs (baseDir env ty) (destPath env ty sp0) (env.resolve sp0)
        [Event.validated] ∨
    install_skill v env inputs fs sp0 ty =
      createLink (remove_existing fs (destPath env ty sp0)) (baseDir env ty)
        (destPath env ty sp0) (env.resolve sp0)
        [Event.validated, Event.confirmed, Event.removed (destPath env ty sp0)] := by
  simp only [install_skill]
  rw [← destPath_eq]
  split
  · exact Or.inl ⟨rfl, rfl⟩
  split
  · exact Or.inl ⟨rfl, rfl⟩
  split
  · exact Or.inl ⟨rfl, rfl⟩
  split
  · exact Or.inl ⟨rfl, rfl⟩
  split
  · split
    · exact Or.inl ⟨rfl, rfl⟩
    · exact Or.inl ⟨rfl, rfl⟩
    · exact Or.inr (Or.inr rfl)
  · exact Or.inr (Or.inl rfl)

theorem createLink_success {fs1 : FS} {b d t : Path} {evs0 : List Event}
    (h : (createLink fs1 b d t evs0).success = true) :
    (createLink fs1 b d t evs0).fs d = some (Node.symlink t true) := by
  unfold createLink at h ⊢
  split at h
  · exact Bool.noConfusion h
  · rename_i g hmk
    split at h
    · rename_i fs3 hsl
      show fs3 d = some (Node.symlink t true)
      rw [(symlinkTo_eq_some hsl).2.2 d, if_pos rfl]
    · exact Bool.noConfusion h

/-- C8 (amended): apart from creating the scope's base directory and its
missing ancestors, the only durable effect of a run is the transition of
the registry entry at the destination and of what lies below it; every
path outside that subtree and off the base-directory chain is untouched,
base-directory ancestors are at most created (never altered) as
directories, and on success the entry is a directory symlink to the
resolved source. -/
theorem install_frame
    (v : Path → Bool × String) (env : Env) (inputs : List String) (fs : FS)
    (sp0 : Path) (ty : InstallType) :
    (∀ q, seg (destPath env ty sp0) q = false → seg q (baseDir env ty) = false →
      (install_skill v env inputs fs sp0 ty).fs q = fs q) ∧
    (∀ q, seg q (baseDir env ty) = true →
      (install_skill v env inputs fs sp0 ty).fs q = fs q ∨
        (fs q = none ∧ (install_skill v env inputs fs sp0 ty).fs q = some Node.dir)) ∧
    ((install_skill v env inputs fs sp0 ty).success = true →
      (install_skill v env inputs fs sp0 ty).fs (destPath env ty sp0) =
        some (Node.symlink (env.resolve sp0) true)) := by
  refine ⟨?_, ?_, ?_⟩
  · intro q hdp hb
    rcases install_shape v env inputs fs sp0 ty with ⟨hfs, -⟩ | heq | heq
    · rw [hfs]
    · rw [heq, createLink_frame (ne_of_seg_eq_false hdp) hb]
    · rw [heq, createLink_frame (ne_of_seg_eq_false hdp) hb,
        remove_existing_frame hdp]
  · intro q hb
    have hqd : q ≠ destPath env ty sp0 := by
      intro h
      rw [h, destPath_eq, seg_snoc_self] at hb
      exact Bool.noConfusion hb
    have hdq : seg (destPath env ty sp0) q = false := by
      rw [destPath_eq]
      exact seg_snoc_of_seg _ hb
    rcases install_shape v env inputs fs sp0 ty with ⟨hfs, -⟩ | heq | heq
    · rw [hfs]
      exact Or.inl rfl
    · rw [heq]
      exact createLink_base hb hqd
    · rw [heq]
      rcases @createLink_base (remove_existing fs (destPath env ty sp0))
          (baseDir env ty) (destPath env ty sp0) (env.resolve sp0)
          [Event.validated, Event.confirmed, Event.removed (destPath env ty sp0)]
          q hb hqd with h | ⟨hnone, hdir⟩
      · rw [h, remove_existing_frame hdq]
        exact Or.inl rfl
      · rw [remove_existing_frame hdq] at hnone
        exact Or.inr ⟨hnone, hdir⟩
  · intro hsucc
    rcases install_shape v env inputs fs sp0 ty with ⟨-, hfail⟩ | heq | heq
    · rw [hsucc] at hfail
      exact Bool.noConfusion hfail
    · rw [heq] at hsucc ⊢
      exact createLink_success hsucc
    · rw [heq] at hsucc ⊢
      exact createLink_success hsucc

theorem createLink_ok_conclusions {fs1 : FS} {b : Path} (t : Path)
    (evs0 : List Event) {n : String} (h0 : fs1 (b ++ [n]) = none)
    (hmk : (mkdirp fs1 b).isSome = true) :
    (createLink fs1 b (b ++ [n]) t evs0).success = true ∧
    (createLink fs1 b (b ++ [n]) t evs0).err = none ∧
    (createLink fs1 b (b ++ [n]) t evs0).fs (b ++ [n]) = some (Node.symlink t true) ∧
    isDir (createLink fs1 b (b ++ [n]) t evs0).fs b = true := by
  obtain ⟨g, hg, hck⟩ := createLink_ok h0 hmk
  have hgdp : g (b ++ [n]) = none := by
    rw [(mkdirp_eq_some hg).1 (b ++ [n]), seg_snoc_self]
    simpa using h0
  have hmono : ∀ q, (g q).isSome →
      (fun q => if q = b ++ [n] then some (Node.symlink t true) else g q) q = g q := by
    intro q hq
    by_cases hqd : q = b ++ [n]
    · rw [hqd, hgdp] at hq
      exact absurd hq (by simp)
    · simp only [if_neg hqd]
  rw [hck]
  refine ⟨rfl, rfl, ?_, ?_⟩
  · show (if b ++ [n] = b ++ [n] then some (Node.symlink t true) else g (b ++ [n])) =
      some (Node.symlink t true)
    rw [if_pos rfl]
  · exact isDir_mono hmono (mkdirp_isDir_all hg b (seg_refl b)).1

/-- C1 (amended): when the preconditions and validation pass, collision
resolution completes (no collision, or the overwrite is confirmed), and no
existing non-directory entry blocks the base-directory chain (so the
ensure-base-directory step succeeds), the installer reports success with
the base directory in place and the registry entry a directory symlink to
the resolved source path. -/
theorem install_success_characterization
    (v : Path → Bool × String) (env : Env) (inputs : List String) (fs : FS)
    (sp0 : Path) (ty : InstallType)
    (h1 : fsExists fs (env.resolve sp0) = true)
    (h2 : isDir fs (env.resolve sp0) = true)
    (h3 : fsExists fs (env.resolve sp0 ++ ["SKILL.md"]) = true)
    (h4 : (v (env.resolve sp0)).1 = true)
    (hcol : (fsExists fs (destPath env ty sp0) = false ∧
             isSymlink fs (destPath env ty sp0) = false) ∨
            ((fsExists fs (destPath env ty sp0) ||
              isSymlink fs (destPath env ty sp0)) = true ∧
             get_confirmation inputs = some true))
    (hmk : (mkdirp
        (if fsExists fs (destPath env ty sp0) || isSymlink fs (destPath env ty sp0) then
          remove_existing fs (destPath env ty sp0)
        else fs)
        (baseDir env ty)).isSome = true) :
    (install_skill v env inputs fs sp0 ty).success = true ∧
    (install_skill v env inputs fs sp0 ty).err = none ∧
    (install_skill v env inputs fs sp0 ty).fs (destPath env ty sp0) =
      some (Node.symlink (env.resolve sp0) true) ∧
    isDir (install_skill v env inputs fs sp0 ty).fs (baseDir env ty) = true := by
  rw [install_eq_of_pre h1 h2 h3 h4]
  rcases hcol with ⟨he, hs⟩ | ⟨hc, hct⟩
  · have hcond : (fsExists fs (destPath env ty sp0) ||
        isSymlink fs (destPath env ty sp0)) = false := by
      rw [he, hs]
      rfl
    rw [hcond] at hmk
    simp only [Bool.false_eq_true, if_false] at hmk
    rw [if_neg (by rw [hcond]; simp)]
    have h0 : fs (baseDir env ty ++ [(env.resolve sp0).getLastD ""]) = none := by
      rw [← destPath_eq]
      exact node_none_of_no_collision he hs
    have := createLink_ok_conclusions (env.resolve sp0) [Event.validated] h0 hmk
    rw [destPath_eq]
    exact this
  · rw [hc] at hmk
    simp only [eq_self_iff_true, if_true] at hmk
    rw [if_pos hc, hct]
    have h0 : remove_existing fs (destPath env ty sp0)
        (baseDir env ty ++ [(env.resolve sp0).getLastD ""]) = none := by
      rw [← destPath_eq]
      exact remove_existing_dest fs _
    have := createLink_ok_conclusions (env.resolve sp0)
      [Event.validated, Event.confirmed, Event.removed (destPath env ty sp0)] h0 hmk
    rw [destPath_eq]
    exact this

/-- C7: a second install of the same source to the same scope from the
state a successful install produced, with the overwrite confirmed, is
idempotent: it succeeds and returns the very same filesystem, whose
registry entry is the same symlink to the resolved source as after the
first run, with no stray entries. -/
theorem install_idempotent
    (v : Path → Bool × String) (env : Env) (i1 i2 : List String) (fs fs1 : FS)
    (evs1 : List Event) (sp0 : Path) (ty : InstallType)
    (h1 : install_skill v env i1 fs sp0 ty = IOut.ret true none fs1 evs1)
    (h2 : fsExists fs1 (env.resolve sp0) = true)
    (h3 : isDir fs1 (env.resolve sp0) = true)
    (h4 : fsExists fs1 (env.resolve sp0 ++ ["SKILL.md"]) = true)
    (h5 : (v (env.resolve sp0)).1 = true)
    (hc : get_confirmation i2 = some true) :
    install_skill v env i2 fs1 sp0 ty =
      IOut.ret true none fs1
        [Event.validated, Event.confirmed, Event.removed (destPath env ty sp0),
         Event.linked (destPath env ty sp0)] ∧
    fs1 (destPath env ty sp0) = some (Node.symlink (env.resolve sp0) true) := by
  obtain ⟨-, fsA, g, hmk, hsl⟩ := install_ret_true_inv h1
  have hptw := (symlinkTo_eq_some hsl).2.2
  have hgdp : g (destPath env ty sp0) = none := (symlinkTo_eq_some hsl).1
  have hfs1dp : fs1 (destPath env ty sp0) =
      some (Node.symlink (env.resolve sp0) true) := by
    rw [hptw (destPath env ty sp0), if_pos rfl]
  have hsym : isSymlink fs1 (destPath env ty sp0) = true := by
    unfold isSymlink
    rw [hfs1dp]
  have hunlink : unlink fs1 (destPath env ty sp0) = g := by
    funext q
    by_cases hq : q = destPath env ty sp0
    · rw [unlink, if_pos hq, hq, hgdp]
    · rw [unlink, if_neg hq, hptw q, if_neg hq]
  have hrem : remove_existing fs1 (destPath env ty sp0) = g := by
    unfold remove_existing
    rw [hsym]
    simpa using hunlink
  have hmkg : mkdirp g (baseDir env ty) = some g := mkdirp_idem hmk
  rw [install_eq_of_pre h2 h3 h4 h5,
    if_pos (by rw [hsym, Bool.or_true]), hc]
  refine ⟨?_, hfs1dp⟩
  rw [hrem]
  unfold createLink
  rw [hmkg]
  simp only
  rw [hsl]
  rfl

/-! Counterexamples and witnesses on the concrete fixtures. -/

/-- C1 counterexample: in `fsB` every precondition passes, validation
passes, and there is no collision, yet the run does not succeed and no
link is created, because `home/.claude` is a regular file and the
ensure-base-directory step blows up. -/
theorem install_success_counterexample :
    fsExists fsB (envW.resolve ["src", "sk"]) = true ∧
    isDir fsB (envW.resolve ["src", "sk"]) = true ∧
    fsExists fsB (envW.resolve ["src", "sk"] ++ ["SKILL.md"]) = true ∧
    (vW (envW.resolve ["src", "sk"])).1 = true ∧
    fsExists fsB (destPath envW InstallType.personal ["src", "sk"]) = false ∧
    isSymlink fsB (destPath envW InstallType.personal ["src", "sk"]) = false ∧
    (install_skill vW envW [] fsB ["src", "sk"] InstallType.personal).success = false ∧
    (install_skill vW envW [] fsB ["src", "sk"] InstallType.personal).fs
      (destPath envW InstallType.personal ["src", "sk"]) = none := by
  decide

/-- C1 (amended) witness: a concrete collision-free successful install. -/
theorem install_success_characterization_witness :
    (install_skill vW envW [] fsW ["src", "sk"] InstallType.personal).success = true ∧
    (install_skill vW envW [] fsW ["src", "sk"] InstallType.personal).err = none ∧
    (install_skill vW envW [] fsW ["src", "sk"] InstallType.personal).fs
      (destPath envW InstallType.personal ["src", "sk"]) =
      some (Node.symlink (envW.resolve ["src", "sk"]) true) ∧
    isDir (install_skill vW envW [] fsW ["src", "sk"] InstallType.personal).fs
      (baseDir envW InstallType.personal) = true :=
  install_success_characterization vW envW [] fsW ["src", "sk"] InstallType.personal
    (by decide) (by decide) (by decide) (by decide)
    (Or.inl ⟨by decide, by decide⟩) (by decide)

/-- C2 witness: the four precondition failures at concrete inputs. -/
theorem install_preconditions_order_witness :
    install_skill vW envW [] fsW ["nope"] InstallType.personal =
      IOut.ret false (some InstallError.NotFound) fsW [] ∧
    install_skill vW envW [] fsW ["src", "sk", "SKILL.md"] InstallType.personal =
      IOut.ret false (some InstallError.NotADirectory) fsW [] ∧
    install_skill vW envW [] fsW ["src"] InstallType.personal =
      IOut.ret false (some InstallError.MissingManifest) fsW [] ∧
    install_skill vF envW [] fsW ["src", "sk"] InstallType.personal =
      IOut.ret false (some (InstallError.ValidationFailed "bad frontmatter")) fsW [] :=
  ⟨(install_preconditions_order vW envW [] fsW ["nope"]
      InstallType.personal).1 (by decide),
   (install_preconditions_order vW envW [] fsW ["src", "sk", "SKILL.md"]
      InstallType.personal).2.1 (by decide) (by decide),
   (install_preconditions_order vW envW [] fsW ["src"]
      InstallType.personal).2.2.1 (by decide) (by decide) (by decide),
   (install_preconditions_order vF envW [] fsW ["src", "sk"]
      InstallType.personal).2.2.2 (by decide) (by decide) (by decide) (by decide)⟩

/-- C4 witness: no collision on `fsW` — the run ignores the confirmation
stream and removes nothing; a broken symlink on `fsL` still collides, and
with no recognized answer the run blocks at the prompt. -/
theorem install_collision_iff_witness :
    (install_skill vW envW ["zzz"] fsW ["src", "sk"] InstallType.personal =
      install_skill vW envW [] fsW ["src", "sk"] InstallType.personal) ∧
    Event.removed (destPath envW InstallType.personal ["src", "sk"]) ∉
      (install_skill vW envW ["zzz"] fsW ["src", "sk"] InstallType.personal).evs ∧
    fsExists fsL (destPath envW InstallType.personal ["src", "sk"]) = false ∧
    isSymlink fsL (destPath envW InstallType.personal ["src", "sk"]) = true ∧
    install_skill vW envW ["bogus"] fsL ["src", "sk"] InstallType.personal =
      IOut.hang fsL [Event.validated] :=
  ⟨((install_collision_iff vW envW ["zzz"] fsW ["src", "sk"] InstallType.personal
      (by decide) (by decide) (by decide) (by decide)).1 (by decide) (by decide)).1,
   ((install_collision_iff vW envW ["zzz"] fsW ["src", "sk"] InstallType.personal
      (by decide) (by decide) (by decide) (by decide)).1 (by decide) (by decide)).2
      (destPath envW InstallType.personal ["src", "sk"]),
   by decide, by decide,
   (install_collision_iff vW envW ["bogus"] fsL ["src", "sk"] InstallType.personal
      (by decide) (by decide) (by decide) (by decide)).2 (by decide) (by decide)⟩

/-- C5 witness: unlinking a link leaves its target untouched; removing a
materialized directory removes its contents but not a sibling; removing a
plain file removes just that file. -/
theorem remove_existing_exact_witness :
    remove_existing fs1W ["home", ".claude", "skills", "sk"]
      ["home", ".claude", "skills", "sk"] = none ∧
    remove_existing fs1W ["home", ".claude", "skills", "sk"] ["src", "sk"] =
      fs1W ["src", "sk"] ∧
    remove_existing fsD ["home", ".claude", "skills", "sk"]
      ["home", ".claude", "skills", "sk", "notes.txt"] = none ∧
    remove_existing fsD ["home", ".claude", "skills", "sk"]
      ["home", ".claude", "skills", "other"] = some Node.file ∧
    remove_existing fsD ["home", ".claude", "skills", "other"]
      ["home", ".claude", "skills", "other"] = none ∧
    remove_existing fsD ["home", ".claude", "skills", "other"]
      ["home", ".claude", "skills", "sk", "notes.txt"] =
      fsD ["home", ".claude", "skills", "sk", "notes.txt"] :=
  ⟨((remove_existing_exact fs1W ["home", ".claude", "skills", "sk"]).1 (by decide)).1,
   ((remove_existing_exact fs1W ["home", ".claude", "skills", "sk"]).1 (by decide)).2
      ["src", "sk"] (by decide),
   ((remove_existing_exact fsD ["home", ".claude", "skills", "sk"]).2.1
      (by decide) (by decide)
      ["home", ".claude", "skills", "sk", "notes.txt"]).trans (by decide),
   ((remove_existing_exact fsD ["home", ".claude", "skills", "sk"]).2.1
      (by decide) (by decide)
      ["home", ".claude", "skills", "other"]).trans (by decide),
   ((remove_existing_exact fsD ["home", ".claude", "skills", "other"]).2.2
      (by decide) (by decide)).1,
   ((remove_existing_exact fsD ["home", ".claude", "skills", "other"]).2.2
      (by decide) (by decide)).2
      ["home", ".claude", "skills", "sk", "notes.txt"] (by decide)⟩

/-- C6 witness: declining the overwrite of a materialized entry cancels
with the filesystem unchanged. -/
theorem install_decline_cancelled_witness :
    install_skill vW envW ["x", "N"] fsD ["src", "sk"] InstallType.personal =
      IOut.ret false (some InstallError.Cancelled) fsD [Event.validated] :=
  install_decline_cancelled vW envW ["x", "N"] fsD ["src", "sk"] InstallType.personal
    (by decide) (by decide) (by decide) (by decide) (by decide) (by decide)

/-- C7 witness: re-installing `src/sk` over the state of its own first
installation, answering yes, returns the very same filesystem. -/
theorem install_idempotent_witness :
    install_skill vW envW ["y"] fs1W ["src", "sk"] InstallType.personal =
      IOut.ret true none fs1W
        [Event.validated, Event.confirmed,
         Event.removed (destPath envW InstallType.personal ["src", "sk"]),
         Event.linked (destPath envW InstallType.personal ["src", "sk"])] ∧
    fs1W (destPath envW InstallType.personal ["src", "sk"]) =
      some (Node.symlink (envW.resolve ["src", "sk"]) true) :=
  install_idempotent vW envW [] ["y"] fsW fs1W evs1W ["src", "sk"]
    InstallType.personal rfl (by decide) (by decide) (by decide) (by decide)
    (by decide)

/-- C8 counterexample: a successful install from `fsW` creates
`home/.claude`, a path that is neither the registry entry nor below it, so
the entry's transition is not the only durable side effect. -/
theorem install_frame_counterexample :
    (install_skill vW envW [] fsW ["src", "sk"] InstallType.personal).success = true ∧
    fsW ["home", ".claude"] = none ∧
    (install_skill vW envW [] fsW ["src", "sk"] InstallType.personal).fs
      ["home", ".claude"] = some Node.dir ∧
    ["home", ".claude"] ≠ destPath envW InstallType.personal ["src", "sk"] ∧
    seg (destPath envW InstallType.personal ["src", "sk"]) ["home", ".claude"] = false := by
  decide

/-- C8 (amended) witness: the frame at concrete paths — the source
manifest is untouched, `home/.claude` is only created, and the entry ends
as the directory symlink. -/
theorem install_frame_witness :
    (install_skill vW envW [] fsW ["src", "sk"] InstallType.personal).fs
      ["src", "sk", "SKILL.md"] = fsW ["src", "sk", "SKILL.md"] ∧
    ((install_skill vW envW [] fsW ["src", "sk"] InstallType.personal).fs
        ["home", ".claude"] = fsW ["home", ".claude"] ∨
      (fsW ["home", ".claude"] = none ∧
        (install_skill vW envW [] fsW ["src", "sk"] InstallType.personal).fs
          ["home", ".claude"] = some Node.dir)) ∧
    (install_skill vW envW [] fsW ["src", "sk"] InstallType.personal).fs
      (destPath envW InstallType.personal ["src", "sk"]) =
      some (Node.symlink (envW.resolve ["src", "sk"]) true) :=
  ⟨(install_frame vW envW [] fsW ["src", "sk"] InstallType.personal).1
      ["src", "sk", "SKILL.md"] (by decide) (by decide),
   (install_frame vW envW [] fsW ["src", "sk"] InstallType.personal).2.1
      ["home", ".claude"] (by decide),
   (install_frame vW envW [] fsW ["src", "sk"] InstallType.personal).2.2 (by decide)⟩

/-- C9 witness: no mutation, exit 1 on a missing path and on a file, exit
nonzero with the surfaced message on a failed verdict. -/
theorem validate_main_spec_witness :
    (validate_main vF envW fsW ["src", "sk"]).2.2 = fsW ∧
    (validate_main vW envW fsW ["nope"]).1 = 1 ∧
    (validate_main vW envW fsW ["src", "sk", "SKILL.md"]).1 = 1 ∧
    ¬ (validate_main vF envW fsW ["src", "sk"]).1 = 0 ∧
    (validate_main vF envW fsW ["src", "sk"]).2.1 =
      ["❌ Validation failed: " ++ "bad frontmatter"] :=
  ⟨(validate_main_spec vF envW fsW ["src", "sk"]).1,
   (validate_main_spec vW envW fsW ["nope"]).2.1 (by decide),
   (validate_main_spec vW envW fsW ["src", "sk", "SKILL.md"]).2.2.1
      (by decide) (by decide),
   fun h => Bool.noConfusion
      (((validate_main_spec vF envW fsW ["src", "sk"]).2.2.2
        (by decide) (by decide)).1.mp h),
   ((validate_main_spec vF envW fsW ["src", "sk"]).2.2.2
      (by decide) (by decide)).2 (by decide)⟩

/-- C10 witness: the first recognized response wins after unrecognized
inputs, and an unrecognized stream never resolves. -/
theorem get_confirmation_first_recognized_witness :
    get_confirmation ["maybe", " YES ", "n"] = some true ∧
    get_confirmation ["whatever"] = none :=
  ⟨((get_confirmation_first_recognized ["maybe", " YES ", "n"]).1 true).mpr
      ⟨["maybe"], " YES ", ["n"], rfl, by decide, Or.inl ⟨by decide, rfl⟩⟩,
   (get_confirmation_first_recognized ["whatever"]).2.mpr (by decide)⟩

end Skills
